import Mathlib

/-!
Verification development for the graph_agents repository: a shallow embedding
of the multiagent orchestration core described in the specification
(Entity Extractor Agent, Graph Query Agent, Orchestrator state machine) and of
the two executable notebook cells of pipeline.ipynb (workspace setup via
os.makedirs, database loading via neo4j_loading.load).

The repository sources contain only pipeline.ipynb and the project README; the
orchestration core itself is not present under the sources, so its definitions
below are modelled from the specification text and are marked as such in their
doc comments.
-/

namespace GraphAgents

/-- Modelled from the spec, section 3: an Entity Mention produced by the Entity
Extractor Agent. Confidence lives in [0,1]; scores are modelled as rationals. -/
structure EntityMention where
  name : String
  aliases : List String
  confidence : Rat
deriving Repr, DecidableEq

/-- Modelled from the spec, section 3: the source type of a Graph Evidence Item. -/
inductive SourceType where
  | node
  | relationship
  | communitySummary
deriving Repr, DecidableEq

/-- Modelled from the spec, section 3: a Graph Evidence Item produced by the
Graph Query Agent. The payload is a structured record (key-value pairs);
matchedNames records which normalized mention names the item was matched on. -/
structure GraphEvidenceItem where
  sourceType : SourceType
  identifier : String
  payload : List (String × String)
  matchedNames : List String
  relevanceScore : Rat
deriving Repr, DecidableEq

/-- Modelled from the spec, section 3: terminal status of a Session. -/
inductive SessionStatus where
  | pending
  | answered
  | failed
  | aborted
deriving Repr, DecidableEq

/-- Modelled from the spec, section 3: the Session record holding the Query,
accumulated mentions, the ordered evidence sequence (insertion order equals
retrieval order), the turn counter and the status. -/
structure Session where
  query : String
  mentions : List EntityMention
  evidence : List GraphEvidenceItem
  turns : Nat
  status : SessionStatus
deriving Repr, DecidableEq

/-- Modelled from the spec, section 3: the final Answer, with citations as an
ordered sequence of evidence identifiers and an explicit low-confidence marker
(section 7 allows the Answer to carry one). -/
structure Answer where
  text : String
  citedEvidenceIds : List String
  lowConfidence : Bool
deriving Repr, DecidableEq

/-- Modelled from the spec, section 4.1: the states of the Orchestrator state
machine. -/
inductive OState where
  | init
  | extractingEntities
  | queryingGraph
  | evaluating
  | synthesizing
  | answeredState
  | failedState
  | abortedState
deriving Repr, DecidableEq

/-- Modelled from the spec, section 7: the error kinds that can make a Session
fail. TurnBudgetExhausted is deliberately absent: the spec says it is not an
error but a normal forced-termination path. -/
inductive ErrorKind where
  | extractionUnavailable
  | extractionMalformed
  | graphUnavailable
  | graphQueryInvalid
deriving Repr, DecidableEq

/-- Modelled from the spec, section 7: the FailureReport surfaced to the caller
by a Failed Session. -/
structure FailureReport where
  kind : ErrorKind
  lastState : OState
  turnCount : Nat
deriving Repr, DecidableEq

/-- Modelled from the spec, section 6: the caller receives either an Answer or
a FailureReport, never both. -/
inductive SessionResult where
  | answer (a : Answer)
  | failure (r : FailureReport)
deriving Repr, DecidableEq

/-- Modelled from the spec, sections 5 and 6: per-Session immutable
configuration. -/
structure Config where
  sufficiencyThreshold : Rat
  confidenceThreshold : Rat
  maxTurns : Nat
  retryBudget : Nat
deriving Repr, DecidableEq

/-- Name normalization used to deduplicate mentions by normalized name. -/
def normName (s : String) : String :=
  s.toLower

/-- Deduplication of a list of identifiers keeping the first occurrence of
each; seen accumulates identifiers already emitted. -/
def dedupAcc (seen : List String) : List String → List String
  | [] => []
  | x :: xs => if x ∈ seen then dedupAcc seen xs else x :: dedupAcc (x :: seen) xs

/-- Deduplication by identifier keeping first occurrences (retrieval order). -/
def dedupKeepFirst (l : List String) : List String :=
  dedupAcc [] l

/-- Deduplication of Entity Mentions by normalized name, keeping the first
mention carrying each normalized name. -/
def dedupMentionsAcc (seen : List String) : List EntityMention → List EntityMention
  | [] => []
  | m :: ms =>
    if normName m.name ∈ seen then dedupMentionsAcc seen ms
    else m :: dedupMentionsAcc (normName m.name :: seen) ms

/-- Merge newly extracted mentions into the accumulated set, deduplicated by
normalized name (spec, section 3: the accumulated set of Entity Mentions is
deduplicated by normalized name). -/
def mergeMentions (old new : List EntityMention) : List EntityMention :=
  dedupMentionsAcc [] (old ++ new)

/-- Modelled from the spec, section 7: the outcome of one attempt of an agent
call. Transient outcomes (the Unavailable kinds, timeouts) are retried;
fatal outcomes (Malformed, GraphQueryInvalid) escalate immediately. -/
inductive AgentOutcome (α : Type) where
  | ok (a : α)
  | transient (k : ErrorKind)
  | fatal (k : ErrorKind)
deriving Repr, DecidableEq

/-- Modelled from the spec, section 7: retry transient failures up to the given
retry budget; the oracle f takes the attempt number, so an attempt can succeed
after an earlier one timed out. -/
def callWithRetry {α : Type} (f : Nat → AgentOutcome α) (attempt : Nat) :
    Nat → AgentOutcome α
  | 0 => f attempt
  | b + 1 =>
    match f attempt with
    | .transient _ => callWithRetry f (attempt + 1) b
    | r => r

/-- An oracle standing for the reasoning provider behind the Entity Extractor:
attempt number, query text, optional disambiguation hint. -/
abbrev ExtractOracle := Nat → String → Option String → AgentOutcome (List EntityMention)

/-- Modelled from the spec, section 4.2: the Entity Extractor Agent contract.
Empty input text yields an empty result, not an error; the output never holds
duplicate normalized names; transient provider failures are retried within the
retry budget. -/
def extract (oracle : ExtractOracle) (retryBudget : Nat) (queryText : String)
    (disambiguationHint : Option String) : AgentOutcome (List EntityMention) :=
  if queryText = "" then .ok []
  else
    match callWithRetry (fun n => oracle n queryText disambiguationHint) 0 retryBudget with
    | .ok ms => .ok (dedupMentionsAcc [] ms)
    | r => r

/-- Modelled from the spec, sections 2 and 6: an entity record in the graph
store, addressable by identifier, exact name or alias. -/
structure GraphNode where
  id : String
  name : String
  aliases : List String
  properties : List (String × String)
deriving Repr, DecidableEq

/-- Modelled from the spec, sections 2 and 6: a relationship record between two
entity nodes of the graph store. -/
structure GraphRel where
  id : String
  source : String
  target : String
  description : String
deriving Repr, DecidableEq

/-- Modelled from the spec, sections 2 and 6: a community report at a given
granularity level, covering a set of member nodes. -/
structure CommunityReport where
  id : String
  level : Nat
  memberIds : List String
  summary : String
deriving Repr, DecidableEq

/-- Modelled from the spec, sections 2 and 6: a text chunk indexed in the
textual vector space. -/
structure TextChunk where
  id : String
  text : String
deriving Repr, DecidableEq

/-- Modelled from the spec, section 6: the graph store artifacts the Graph
Query Agent reads. The field sim is the cosine-similarity oracle of the
textual vector space: sim q t is the similarity between the embedding of the
query text q and the embedding of a chunk text t. -/
structure GraphStore where
  nodes : List GraphNode
  rels : List GraphRel
  communities : List CommunityReport
  chunks : List TextChunk
  sim : String → String → Rat

/-- Modelled from the spec, section 4.3: the three retrieval modes of the
Graph Query Agent. -/
inductive QueryMode where
  | entityLookup
  | communitySummary
  | vectorSimilarity
deriving Repr, DecidableEq

/-- Does the lookup string s match the node n by exact name or alias, after
normalization. -/
def nameMatchesNode (s : String) (n : GraphNode) : Bool :=
  normName n.name == normName s || n.aliases.any (fun a => normName a == normName s)

/-- All the name strings carried by a mention set: names and aliases. -/
def mentionNames (ms : List EntityMention) : List String :=
  ms.flatMap (fun m => m.name :: m.aliases)

/-- The lookup strings of a resolved query: mention names and aliases, plus
the raw query text when present. -/
def lookupTargets (mentions : List EntityMention) (rawQuery : Option String) :
    List String :=
  mentionNames mentions ++ (match rawQuery with | some t => [t] | none => [])

/-- Modelled from the spec, section 4.3: resolve the mentions (and the raw
query, when present) to graph nodes by exact or alias match. -/
def resolvedNodes (store : GraphStore) (mentions : List EntityMention)
    (rawQuery : Option String) : List GraphNode :=
  store.nodes.filter
    (fun n => (lookupTargets mentions rawQuery).any (fun s => nameMatchesNode s n))

/-- The relationships of the store incident to one of the given node ids. -/
def relsTouching (store : GraphStore) (nodeIds : List String) : List GraphRel :=
  store.rels.filter (fun r => nodeIds.contains r.source || nodeIds.contains r.target)

/-- The community reports of the store covering at least one of the given
node ids. -/
def coveringReports (store : GraphStore) (nodeIds : List String) :
    List CommunityReport :=
  store.communities.filter (fun c => nodeIds.any (fun i => c.memberIds.contains i))

/-- The reports at the highest granularity level among the given ones
(spec, section 4.3: CommunitySummary retrieves the highest-level report). -/
def highestLevel (cs : List CommunityReport) : List CommunityReport :=
  cs.filter (fun c => c.level == (cs.map (fun d => d.level)).foldr max 0)

/-- The text embedded for VectorSimilarity: the raw query, or the concatenated
mention names as fallback (spec, section 4.3). -/
def vectorText (mentions : List EntityMention) (rawQuery : Option String) : String :=
  match rawQuery with
  | some t => t
  | none => String.intercalate " " (mentions.map (fun m => m.name))

/-- The chunks of the store with positive similarity to the query text: the
matches of a VectorSimilarity retrieval. -/
def matchingChunks (store : GraphStore) (text : String) : List TextChunk :=
  store.chunks.filter (fun c => decide (0 < store.sim text c.text))

/-- Ranking order of a VectorSimilarity retrieval: higher similarity first,
ties broken by lexicographically smaller identifier (spec, section 4.3). -/
def chunkBefore (store : GraphStore) (text : String) (c d : TextChunk) : Bool :=
  decide (store.sim text d.text < store.sim text c.text) ||
    (decide (store.sim text c.text = store.sim text d.text) && decide (c.id < d.id))

/-- Insertion into a list sorted by the Boolean order le. -/
def insertBy {α : Type} (le : α → α → Bool) (x : α) : List α → List α
  | [] => [x]
  | y :: ys => if le x y then x :: y :: ys else y :: insertBy le x ys

/-- Insertion sort by the Boolean order le. -/
def sortBy {α : Type} (le : α → α → Bool) : List α → List α
  | [] => []
  | x :: xs => insertBy le x (sortBy le xs)

/-- Evidence item built from a resolved node; matchedNames records the lookup
strings the node was matched on. -/
def nodeEvidence (mentions : List EntityMention) (rawQuery : Option String)
    (n : GraphNode) : GraphEvidenceItem :=
  { sourceType := .node
    identifier := n.id
    payload := ("name", n.name) :: n.properties
    matchedNames :=
      ((lookupTargets mentions rawQuery).filter (fun s => nameMatchesNode s n)).map normName
    relevanceScore := 1 }

/-- Evidence item built from a relationship incident to a resolved node. -/
def relEvidence (r : GraphRel) : GraphEvidenceItem :=
  { sourceType := .relationship
    identifier := r.id
    payload := [("source", r.source), ("target", r.target), ("description", r.description)]
    matchedNames := []
    relevanceScore := 1 }

/-- Evidence item built from a community report. -/
def reportEvidence (c : CommunityReport) : GraphEvidenceItem :=
  { sourceType := .communitySummary
    identifier := c.id
    payload := [("summary", c.summary)]
    matchedNames := []
    relevanceScore := 1 }

/-- Evidence item built from a chunk retrieved by vector similarity; the score
is the similarity of the chunk to the query text. -/
def chunkEvidence (store : GraphStore) (text : String) (c : TextChunk) :
    GraphEvidenceItem :=
  { sourceType := .node
    identifier := c.id
    payload := [("text", c.text)]
    matchedNames := []
    relevanceScore := store.sim text c.text }

/-- Modelled from the spec, section 4.3: a resolved query is malformed when it
carries no lookup material at all - an empty mention set and no raw query. -/
def queryMalformed (mentions : List EntityMention) (rawQuery : Option String) : Bool :=
  mentions.isEmpty && rawQuery.isNone

/-- Modelled from the spec, section 4.3: the Graph Query Agent contract over a
reachable store. A malformed resolved query fails with GraphQueryInvalid; a
well-formed query returns the ordered evidence sequence, which is empty (not
an error) when nothing matches. Store unreachability is modelled at the
orchestrator boundary, where calls go through an availability oracle. -/
def query (store : GraphStore) (mentions : List EntityMention)
    (rawQuery : Option String) (mode : QueryMode) :
    Except ErrorKind (List GraphEvidenceItem) :=
  if queryMalformed mentions rawQuery then .error .graphQueryInvalid
  else
    match mode with
    | .entityLookup =>
      .ok ((resolvedNodes store mentions rawQuery).map (nodeEvidence mentions rawQuery)
        ++ (relsTouching store ((resolvedNodes store mentions rawQuery).map (fun n => n.id))).map relEvidence)
    | .communitySummary =>
      .ok ((highestLevel (coveringReports store
        ((resolvedNodes store mentions rawQuery).map (fun n => n.id)))).map reportEvidence)
    | .vectorSimilarity =>
      .ok ((sortBy (chunkBefore store (vectorText mentions rawQuery))
        (matchingChunks store (vectorText mentions rawQuery))).map
          (chunkEvidence store (vectorText mentions rawQuery)))

/-- No matches exist in the store for the given resolved query, stated with
the same match conditions the query function uses. -/
def noMatches (store : GraphStore) (mentions : List EntityMention)
    (rawQuery : Option String) (mode : QueryMode) : Bool :=
  match mode with
  | .entityLookup => (resolvedNodes store mentions rawQuery).isEmpty
  | .communitySummary =>
    (coveringReports store ((resolvedNodes store mentions rawQuery).map (fun n => n.id))).isEmpty
  | .vectorSimilarity => (matchingChunks store (vectorText mentions rawQuery)).isEmpty

/-- The Graph Query Agent as a state-passing call over the store: the store is
read, never written, so the call returns it unchanged next to the result. -/
def queryStateful (store : GraphStore) (mentions : List EntityMention)
    (rawQuery : Option String) (mode : QueryMode) :
    Except ErrorKind (List GraphEvidenceItem) × GraphStore :=
  (query store mentions rawQuery mode, store)

/-- An oracle standing for the Graph Query Agent as seen by the Orchestrator:
attempt number, mention set, optional raw query, mode. Unavailability of the
store surfaces as a transient outcome. -/
abbrev GraphOracle :=
  Nat → List EntityMention → Option String → QueryMode → AgentOutcome (List GraphEvidenceItem)

/-- Does some accumulated evidence item cover the mention, that is, was it
matched on the normalized name of the mention. -/
def coversMention (evidence : List GraphEvidenceItem) (m : EntityMention) : Bool :=
  evidence.any (fun e => e.matchedNames.contains (normName m.name))

/-- Modelled from the spec, section 4.1: the sufficiency check. Evidence is
sufficient when some item scores above the sufficiency threshold and the
accumulated evidence covers every high-confidence mention. -/
def sufficientEvidence (cfg : Config) (s : Session) : Bool :=
  s.evidence.any (fun e => decide (cfg.sufficiencyThreshold < e.relevanceScore)) &&
    (s.mentions.filter (fun m => decide (cfg.confidenceThreshold < m.confidence))).all
      (fun m => coversMention s.evidence m)

/-- Modelled from the spec, section 4.1: unresolved entity ambiguity - some
mention has two distinct equally-scored candidate nodes among the evidence. -/
def ambiguousEvidence (s : Session) : Bool :=
  s.mentions.any (fun m =>
    (s.evidence.filter (fun e =>
      e.sourceType == .node && e.matchedNames.contains (normName m.name))).any (fun e1 =>
        (s.evidence.filter (fun e =>
          e.sourceType == .node && e.matchedNames.contains (normName m.name))).any (fun e2 =>
            e1.identifier != e2.identifier &&
              decide (e1.relevanceScore = e2.relevanceScore))))

/-- Modelled from the spec, sections 4.1 and 4.3: the retrieval mode of the
next graph query - the first pass resolves entities, refinement passes broaden
to community summaries. -/
def queryModeFor (s : Session) : QueryMode :=
  if s.turns = 0 then .entityLookup else .communitySummary

/-- Modelled from the spec, section 4.1, Synthesizing: a pure merge and
formatting step over the already-collected evidence. It takes no oracle and no
store, so it can issue no agent calls; citations are the evidence identifiers
in retrieval order, deduplicated by identifier, and the Answer carries the
low-confidence marker when no evidence was gathered. -/
def synthesize (s : Session) : Answer :=
  { text := String.intercalate "; " (s.evidence.map (fun e => e.identifier))
    citedEvidenceIds := dedupKeepFirst (s.evidence.map (fun e => e.identifier))
    lowConfidence := s.evidence.isEmpty }

/-- Append freshly retrieved evidence to the Session, keeping retrieval order. -/
def withEvidence (s : Session) (evs : List GraphEvidenceItem) : Session :=
  { s with evidence := s.evidence ++ evs }

/-- Increment the turn counter of the Session (Evaluating looping back). -/
def bumpTurn (s : Session) : Session :=
  { s with turns := s.turns + 1 }

/-- Merge re-extracted mentions into the Session. -/
def withMentions (s : Session) (ms : List EntityMention) : Session :=
  { s with mentions := mergeMentions s.mentions ms }

/-- Terminal Answered outcome: Synthesizing then Answered. -/
def finishAnswer (s : Session) : Session × SessionResult :=
  ({ s with status := .answered }, .answer (synthesize s))

/-- Terminal Failed outcome: the FailureReport carries the error kind, the
last machine state and the turn count. -/
def finishFailure (s : Session) (k : ErrorKind) (last : OState) :
    Session × SessionResult :=
  ({ s with status := .failed },
    .failure { kind := k, lastState := last, turnCount := s.turns })

/-- Modelled from the spec, section 4.1: the Orchestrator decision loop from
the QueryingGraph state, with the remaining turn budget as fuel. Each pass
queries the graph (retrying transient failures), evaluates sufficiency, and
either synthesizes, fails, or loops back with the turn counter incremented -
through re-extraction first when the evidence shows entity ambiguity. -/
def orchLoop (cfg : Config) (ext : ExtractOracle) (gq : GraphOracle) :
    Nat → Session → Session × SessionResult
  | 0, s =>
    match callWithRetry (fun n => gq n s.mentions (some s.query) (queryModeFor s)) 0
        cfg.retryBudget with
    | .transient k => finishFailure s k .queryingGraph
    | .fatal k => finishFailure s k .queryingGraph
    | .ok evs => finishAnswer (withEvidence s evs)
  | fuel1 + 1, s =>
    match callWithRetry (fun n => gq n s.mentions (some s.query) (queryModeFor s)) 0
        cfg.retryBudget with
    | .transient k => finishFailure s k .queryingGraph
    | .fatal k => finishFailure s k .queryingGraph
    | .ok evs =>
      if sufficientEvidence cfg (withEvidence s evs) = true ∨
          cfg.maxTurns ≤ (withEvidence s evs).turns then
        finishAnswer (withEvidence s evs)
      else if ambiguousEvidence (withEvidence s evs) = true then
        match extract ext cfg.retryBudget s.query (some "disambiguate") with
        | .transient k => finishFailure (bumpTurn (withEvidence s evs)) k .extractingEntities
        | .fatal k => finishFailure (bumpTurn (withEvidence s evs)) k .extractingEntities
        | .ok ms =>
          orchLoop cfg ext gq fuel1 (withMentions (bumpTurn (withEvidence s evs)) ms)
      else
        orchLoop cfg ext gq fuel1 (bumpTurn (withEvidence s evs))

/-- The fresh Session created when a query is submitted. -/
def initialSession (q : String) : Session :=
  { query := q, mentions := [], evidence := [], turns := 0, status := .pending }

/-- Modelled from the spec, sections 4.1 and 6: submitQuery. Init moves to
ExtractingEntities (initial extraction, with retry), then the decision loop
runs with the full turn budget as fuel. -/
def runSession (cfg : Config) (ext : ExtractOracle) (gq : GraphOracle)
    (q : String) : Session × SessionResult :=
  match extract ext cfg.retryBudget q none with
  | .transient k => finishFailure (initialSession q) k .extractingEntities
  | .fatal k => finishFailure (initialSession q) k .extractingEntities
  | .ok ms => orchLoop cfg ext gq cfg.maxTurns { initialSession q with mentions := ms }

/-- A directory path of the notebook workspace, as its list of components
relative to the working directory. -/
abbrev DirPath := List String

/-- The ancestor chain of a path, shortest prefix first: os.makedirs creates
every missing intermediate directory on the way to the target. -/
def ancestorChain : DirPath → List DirPath
  | [] => []
  | c :: cs => [c] :: (ancestorChain cs).map (fun p => c :: p)

/-- Create one directory if it is missing; the filesystem is the list of
existing directories, kept without duplicates. -/
def addDir (fs : List DirPath) (p : DirPath) : List DirPath :=
  if p ∈ fs then fs else fs ++ [p]

/-- The error os.makedirs raises on an existing target without exist_ok. -/
inductive OSError where
  | fileExists
deriving Repr, DecidableEq

/-- Shallow model of os.makedirs(path, exist_ok) as called by pipeline.ipynb
cell 3: creating the target and every missing ancestor; with exist_ok false an
existing target raises FileExistsError, with exist_ok true it is accepted. -/
def makedirs (fs : List DirPath) (p : DirPath) (existOk : Bool) :
    Except OSError (List DirPath) :=
  if p ∈ fs ∧ existOk = false then .error .fileExists
  else .ok ((ancestorChain p).foldl addDir fs)

/-- The target directory of the workspace-setup cell of pipeline.ipynb:
./graph_agents_indexing/input relative to the working directory. -/
def inputDir : DirPath := ["graph_agents_indexing", "input"]

/-- The workspace-setup step of pipeline.ipynb, cell 3:
os.makedirs with exist_ok set to True on ./graph_agents_indexing/input. -/
def workspaceSetupStep (fs : List DirPath) : Except OSError (List DirPath) :=
  makedirs fs inputDir true

/-- The external configuration the pipeline reads from outside the notebook:
the contents of neo4j_config.json, as a record of credential key-value pairs
(the README lists it next to openai_config.json as files filled by hand). -/
structure ExternalConfig where
  neo4jConfig : List (String × String)
deriving Repr, DecidableEq

/-- Outcome of the database-loading step: the database loaded with the given
data, or a failure (missing credentials, missing indexing output). -/
inductive LoadResult where
  | loaded (dbData : String)
  | loadFailed (msg : String)
deriving Repr, DecidableEq

/-- Modelled from the spec: neo4j_loading.load is not under the sources. The
README describes neo4j_loading.py as the code for loading the graph database
with the data - the parquet indexing output earlier cells put on disk - using
the connection credentials of neo4j_config.json. So it reads two inputs: the
external credential configuration and the on-disk indexing artifacts; it fails
when the credentials are unfilled or the artifacts are absent, and otherwise
loads the database with that data. -/
def neo4jLoad (ext : ExternalConfig) (indexingData : Option String) : LoadResult :=
  if ext.neo4jConfig.isEmpty then .loadFailed "neo4j_config.json must be filled"
  else
    match indexingData with
    | none => .loadFailed "indexing output not found"
    | some d => .loaded d

/-- Modelled from the spec, section 6: the indexing collaborator produces,
per corpus, a fixed set of artifacts; the artifact content is a function of
the corpus (cells 7 and 9 of pipeline.ipynb run it as an external CLI). -/
def graphragIndex (corpus : String) : String :=
  corpus

/-- The values computed by the notebook cells that run before the
database-loading cell: the workspace directories from cell 3, the downloaded
corpus text from cell 5, and the indexing output written to disk by cell 9
(none when indexing has not run). -/
structure NotebookState where
  fs : List DirPath
  inputText : String
  indexingOutput : Option String
deriving Repr, DecidableEq

/-- Shallow model of pipeline.ipynb cell 12: the call neo4j_loading.load()
with zero arguments. No Python value of the notebook is passed through the
call, but load itself reads the credentials file and the on-disk indexing
artifacts the notebook state tracks. -/
def databaseLoadingStep (nb : NotebookState) (ext : ExternalConfig) : LoadResult :=
  neo4jLoad ext nb.indexingOutput

/-- Shallow model of the notebook pipeline end to end: cell 3 creates the
workspace directories, cell 5 stores the downloaded corpus, cells 7 and 9 run
the external indexing CLIs writing the artifacts to disk, cell 12 loads the
database. -/
def runPipeline (corpus : String) (ext : ExternalConfig) (nb0 : NotebookState) :
    NotebookState × LoadResult :=
  let fs1 := match workspaceSetupStep nb0.fs with
    | .ok fs2 => fs2
    | .error _ => nb0.fs
  let nb3 : NotebookState :=
    { fs := fs1, inputText := corpus, indexingOutput := some (graphragIndex corpus) }
  (nb3, databaseLoadingStep nb3 ext)

/-- Index of the first occurrence of x in the list (the length when absent):
positions of identifiers in the retrieval-order sequence. -/
def firstIdx : List String → String → Nat
  | [], _ => 0
  | y :: ys, x => if y = x then 0 else firstIdx ys x + 1

theorem firstIdx_cons_self (y : String) (ys : List String) :
    firstIdx (y :: ys) y = 0 := by
  simp [firstIdx]

theorem firstIdx_cons_ne (y x : String) (ys : List String) (h : y ≠ x) :
    firstIdx (y :: ys) x = firstIdx ys x + 1 := by
  simp [firstIdx, h]

theorem mem_dedupAcc_iff (x : String) :
    ∀ (l seen : List String), x ∈ dedupAcc seen l ↔ (x ∈ l ∧ x ∉ seen)
  | [], seen => by simp [dedupAcc]
  | y :: ys, seen => by
    simp only [dedupAcc]
    by_cases h : y ∈ seen
    · rw [if_pos h, mem_dedupAcc_iff x ys seen]
      constructor
      · rintro ⟨h1, h2⟩
        exact ⟨List.mem_cons_of_mem _ h1, h2⟩
      · rintro ⟨h1, h2⟩
        rcases List.mem_cons.mp h1 with rfl | h3
        · exact absurd h h2
        · exact ⟨h3, h2⟩
    · rw [if_neg h]
      simp only [List.mem_cons, mem_dedupAcc_iff x ys (y :: seen)]
      constructor
      · rintro (rfl | ⟨h1, h2⟩)
        · exact ⟨Or.inl rfl, h⟩
        · exact ⟨Or.inr h1, fun hs => h2 (Or.inr hs)⟩
      · rintro ⟨h1 | h1, h2⟩
        · exact Or.inl h1
        · by_cases hxy : x = y
          · exact Or.inl hxy
          · exact Or.inr ⟨h1, fun hs => hs.elim hxy h2⟩

theorem sublist_dedupAcc : ∀ (l seen : List String), (dedupAcc seen l).Sublist l
  | [], _ => by simp [dedupAcc]
  | y :: ys, seen => by
    simp only [dedupAcc]
    by_cases h : y ∈ seen
    · rw [if_pos h]
      exact (sublist_dedupAcc ys seen).trans (List.sublist_cons_self y ys)
    · rw [if_neg h]
      exact List.Sublist.cons₂ y (sublist_dedupAcc ys (y :: seen))

theorem nodup_dedupAcc : ∀ (l seen : List String), (dedupAcc seen l).Nodup
  | [], _ => by simp [dedupAcc]
  | y :: ys, seen => by
    simp only [dedupAcc]
    by_cases h : y ∈ seen
    · rw [if_pos h]
      exact nodup_dedupAcc ys seen
    · rw [if_neg h]
      refine List.nodup_cons.mpr ⟨fun hy => ?_, nodup_dedupAcc ys (y :: seen)⟩
      exact ((mem_dedupAcc_iff y ys (y :: seen)).mp hy).2 (List.mem_cons_self _ _)

theorem pairwise_firstIdx_dedupAcc : ∀ (l seen : List String),
    (dedupAcc seen l).Pairwise (fun a b => firstIdx l a < firstIdx l b)
  | [], _ => by simp [dedupAcc]
  | y :: ys, seen => by
    simp only [dedupAcc]
    by_cases h : y ∈ seen
    · rw [if_pos h]
      refine (pairwise_firstIdx_dedupAcc ys seen).imp_of_mem ?_
      intro a b ha hb hab
      have ha2 := (mem_dedupAcc_iff a ys seen).mp ha
      have hb2 := (mem_dedupAcc_iff b ys seen).mp hb
      have hya : y ≠ a := fun e => ha2.2 (e ▸ h)
      have hyb : y ≠ b := fun e => hb2.2 (e ▸ h)
      rw [firstIdx_cons_ne y a ys hya, firstIdx_cons_ne y b ys hyb]
      omega
    · rw [if_neg h]
      refine List.pairwise_cons.mpr ⟨fun b hb => ?_, ?_⟩
      · have hb2 := (mem_dedupAcc_iff b ys (y :: seen)).mp hb
        have hyb : y ≠ b := fun e => hb2.2 (e ▸ List.mem_cons_self _ _)
        rw [firstIdx_cons_self, firstIdx_cons_ne y b ys hyb]
        omega
      · refine (pairwise_firstIdx_dedupAcc ys (y :: seen)).imp_of_mem ?_
        intro a b ha hb hab
        have ha2 := (mem_dedupAcc_iff a ys (y :: seen)).mp ha
        have hb2 := (mem_dedupAcc_iff b ys (y :: seen)).mp hb
        have hya : y ≠ a := fun e => ha2.2 (e ▸ List.mem_cons_self _ _)
        have hyb : y ≠ b := fun e => hb2.2 (e ▸ List.mem_cons_self _ _)
        rw [firstIdx_cons_ne y a ys hya, firstIdx_cons_ne y b ys hyb]
        omega

theorem mem_dedupKeepFirst_iff (x : String) (l : List String) :
    x ∈ dedupKeepFirst l ↔ x ∈ l := by
  rw [dedupKeepFirst, mem_dedupAcc_iff]
  simp

theorem mem_addDir (fs : List DirPath) (p q : DirPath) (h : q ∈ fs ∨ q = p) :
    q ∈ addDir fs p := by
  unfold addDir
  by_cases hp : p ∈ fs
  · rw [if_pos hp]
    rcases h with h | rfl
    · exact h
    · exact hp
  · rw [if_neg hp]
    rcases h with h | rfl
    · exact List.mem_append_left _ h
    · exact List.mem_append_right _ (List.mem_singleton.mpr rfl)

theorem mem_foldl_addDir : ∀ (chain : List DirPath) (fs : List DirPath) (q : DirPath),
    (q ∈ fs ∨ q ∈ chain) → q ∈ chain.foldl addDir fs
  | [], fs, q => by
    rintro (h | h)
    · simpa using h
    · simp at h
  | c :: cs, fs, q => by
    rintro (h | h)
    · exact mem_foldl_addDir cs (addDir fs c) q (Or.inl (mem_addDir fs c q (Or.inl h)))
    · rcases List.mem_cons.mp h with rfl | h2
      · exact mem_foldl_addDir cs (addDir fs q) q (Or.inl (mem_addDir fs q q (Or.inr rfl)))
      · exact mem_foldl_addDir cs (addDir fs c) q (Or.inr h2)

theorem foldl_addDir_noop : ∀ (chain : List DirPath) (fs : List DirPath),
    (∀ q ∈ chain, q ∈ fs) → chain.foldl addDir fs = fs
  | [], _ => fun _ => rfl
  | c :: cs, fs => by
    intro h
    have hc : c ∈ fs := h c (List.mem_cons_self _ _)
    have : addDir fs c = fs := by
      unfold addDir
      rw [if_pos hc]
    rw [List.foldl_cons, this]
    exact foldl_addDir_noop cs fs (fun q hq => h q (List.mem_cons_of_mem _ hq))

theorem orchLoop_turns_le (cfg : Config) (ext : ExtractOracle) (gq : GraphOracle) :
    ∀ (fuel : Nat) (s : Session),
      (orchLoop cfg ext gq fuel s).1.turns ≤ s.turns + fuel := by
  intro fuel
  induction fuel with
  | zero =>
    intro s
    rw [orchLoop]
    split
    · simp [finishFailure]
    · simp [finishFailure]
    · simp [finishAnswer, withEvidence]
  | succ fuel1 ih =>
    intro s
    rw [orchLoop]
    split
    · simp [finishFailure]
    · simp [finishFailure]
    · rename_i evs heq
      split
      · simp [finishAnswer, withEvidence]
      · split
        · split
          · simp [finishFailure, bumpTurn, withEvidence]
          · simp [finishFailure, bumpTurn, withEvidence]
          · rename_i ms hex
            have hrec := ih (withMentions (bumpTurn (withEvidence s evs)) ms)
            simp only [withMentions, bumpTurn, withEvidence] at hrec ⊢
            omega
        · have hrec := ih (bumpTurn (withEvidence s evs))
          simp only [bumpTurn, withEvidence] at hrec ⊢
          omega

theorem orchLoop_answer (cfg : Config) (ext : ExtractOracle) (gq : GraphOracle) :
    ∀ (fuel : Nat) (s sfin : Session) (a : Answer),
      orchLoop cfg ext gq fuel s = (sfin, .answer a) →
      sfin.status = .answered ∧ a = synthesize sfin := by
  intro fuel
  induction fuel with
  | zero =>
    intro s sfin a h
    rw [orchLoop] at h
    split at h
    · simp [finishFailure, Prod.mk.injEq] at h
    · simp [finishFailure, Prod.mk.injEq] at h
    · simp only [finishAnswer, Prod.mk.injEq, SessionResult.answer.injEq] at h
      obtain ⟨h1, h2⟩ := h
      subst h1
      subst h2
      exact ⟨rfl, rfl⟩
  | succ fuel1 ih =>
    intro s sfin a h
    rw [orchLoop] at h
    split at h
    · simp [finishFailure, Prod.mk.injEq] at h
    · simp [finishFailure, Prod.mk.injEq] at h
    · split at h
      · simp only [finishAnswer, Prod.mk.injEq, SessionResult.answer.injEq] at h
        obtain ⟨h1, h2⟩ := h
        subst h1
        subst h2
        exact ⟨rfl, rfl⟩
      · split at h
        · split at h
          · simp [finishFailure, Prod.mk.injEq] at h
          · simp [finishFailure, Prod.mk.injEq] at h
          · exact ih _ sfin a h
        · exact ih _ sfin a h

theorem orchLoop_failure (cfg : Config) (ext : ExtractOracle) (gq : GraphOracle) :
    ∀ (fuel : Nat) (s sfin : Session) (r : FailureReport),
      orchLoop cfg ext gq fuel s = (sfin, .failure r) →
      sfin.status = .failed ∧ r.turnCount = sfin.turns := by
  intro fuel
  induction fuel with
  | zero =>
    intro s sfin r h
    rw [orchLoop] at h
    split at h
    · simp only [finishFailure, Prod.mk.injEq, SessionResult.failure.injEq] at h
      obtain ⟨h1, h2⟩ := h
      subst h1
      subst h2
      exact ⟨rfl, rfl⟩
    · simp only [finishFailure, Prod.mk.injEq, SessionResult.failure.injEq] at h
      obtain ⟨h1, h2⟩ := h
      subst h1
      subst h2
      exact ⟨rfl, rfl⟩
    · simp [finishAnswer, Prod.mk.injEq] at h
  | succ fuel1 ih =>
    intro s sfin r h
    rw [orchLoop] at h
    split at h
    · simp only [finishFailure, Prod.mk.injEq, SessionResult.failure.injEq] at h
      obtain ⟨h1, h2⟩ := h
      subst h1
      subst h2
      exact ⟨rfl, rfl⟩
    · simp only [finishFailure, Prod.mk.injEq, SessionResult.failure.injEq] at h
      obtain ⟨h1, h2⟩ := h
      subst h1
      subst h2
      exact ⟨rfl, rfl⟩
    · split at h
      · simp [finishAnswer, Prod.mk.injEq] at h
      · split at h
        · split at h
          · simp only [finishFailure, Prod.mk.injEq, SessionResult.failure.injEq] at h
            obtain ⟨h1, h2⟩ := h
            subst h1
            subst h2
            exact ⟨rfl, rfl⟩
          · simp only [finishFailure, Prod.mk.injEq, SessionResult.failure.injEq] at h
            obtain ⟨h1, h2⟩ := h
            subst h1
            subst h2
            exact ⟨rfl, rfl⟩
          · exact ih _ sfin r h
        · exact ih _ sfin r h

theorem runSession_answer (cfg : Config) (ext : ExtractOracle) (gq : GraphOracle)
    (q : String) (sfin : Session) (a : Answer)
    (h : runSession cfg ext gq q = (sfin, .answer a)) :
    sfin.status = .answered ∧ a = synthesize sfin := by
  rw [runSession] at h
  split at h
  · simp [finishFailure, Prod.mk.injEq] at h
  · simp [finishFailure, Prod.mk.injEq] at h
  · exact orchLoop_answer cfg ext gq cfg.maxTurns _ sfin a h

theorem runSession_failure (cfg : Config) (ext : ExtractOracle) (gq : GraphOracle)
    (q : String) (sfin : Session) (r : FailureReport)
    (h : runSession cfg ext gq q = (sfin, .failure r)) :
    sfin.status = .failed ∧ r.turnCount = sfin.turns := by
  rw [runSession] at h
  split at h
  · simp only [finishFailure, Prod.mk.injEq, SessionResult.failure.injEq] at h
    obtain ⟨h1, h2⟩ := h
    subst h1
    subst h2
    exact ⟨rfl, rfl⟩
  · simp only [finishFailure, Prod.mk.injEq, SessionResult.failure.injEq] at h
    obtain ⟨h1, h2⟩ := h
    subst h1
    subst h2
    exact ⟨rfl, rfl⟩
  · exact orchLoop_failure cfg ext gq cfg.maxTurns _ sfin r h

/-- Concrete configuration used to instantiate the claim theorems. -/
def cfgW : Config :=
  { sufficiencyThreshold := 1, confidenceThreshold := 1, maxTurns := 0, retryBudget := 0 }

/-- Concrete extraction oracle that always returns no mentions. -/
def extOkW : ExtractOracle := fun _ _ _ => .ok []

/-- Concrete graph oracle that always returns no evidence. -/
def gqOkW : GraphOracle := fun _ _ _ _ => .ok []

/-- Concrete extraction oracle whose output is always malformed. -/
def extFailW : ExtractOracle := fun _ _ _ => .fatal .extractionMalformed

/-- Concrete empty graph store. -/
def storeW : GraphStore :=
  { nodes := [], rels := [], communities := [], chunks := [], sim := fun _ _ => 0 }

/-- Concrete mention. -/
def mW : EntityMention := { name := "alice", aliases := [], confidence := 1 }

/-- Concrete evidence item. -/
def evW : GraphEvidenceItem :=
  { sourceType := .node, identifier := "n1", payload := [], matchedNames := [],
    relevanceScore := 1 }

/-- Concrete answered final Session of runSession cfgW extOkW gqOkW applied to
the query string q. -/
def sessAnsW : Session :=
  { query := "q", mentions := [], evidence := [], turns := 0, status := .answered }

/-- Concrete Answer returned alongside sessAnsW. -/
def ansW : Answer := { text := "", citedEvidenceIds := [], lowConfidence := true }

/-- Concrete failed final Session of runSession cfgW extFailW gqOkW applied
to the query string q. -/
def sessFailW : Session :=
  { query := "q", mentions := [], evidence := [], turns := 0, status := .failed }

/-- Concrete FailureReport returned alongside sessFailW. -/
def repW : FailureReport :=
  { kind := .extractionMalformed, lastState := .extractingEntities, turnCount := 0 }

/-- C1: for every Session that terminates with an Answer, every identifier in
the citedEvidenceIds of the Answer is the identifier of a Graph Evidence Item
present in the accumulated evidence sequence of that Session (referential
integrity of citations). -/
theorem answer_cites_only_session_evidence (cfg : Config) (ext : ExtractOracle)
    (gq : GraphOracle) (q : String) (sfin : Session) (a : Answer)
    (h : runSession cfg ext gq q = (sfin, .answer a)) :
    a.citedEvidenceIds ⊆ sfin.evidence.map (fun e => e.identifier) := by
  obtain ⟨_, ha⟩ := runSession_answer cfg ext gq q sfin a h
  subst ha
  intro i hi
  simp only [synthesize] at hi
  exact (mem_dedupKeepFirst_iff i (sfin.evidence.map (fun e => e.identifier))).mp hi

/-- Witness for C1 at a concrete configuration and oracles. -/
theorem answer_cites_only_session_evidence_check :
    ansW.citedEvidenceIds ⊆ sessAnsW.evidence.map (fun e => e.identifier) :=
  answer_cites_only_session_evidence cfgW extOkW gqOkW "q" sessAnsW ansW (by decide)

/-- C2: the Orchestrator decision loop terminates (it is a total function of
the turn budget used as fuel), and the turn counter of the Session at
termination never exceeds maxTurns. -/
theorem turn_counter_le_maxTurns_at_termination (cfg : Config)
    (ext : ExtractOracle) (gq : GraphOracle) (q : String) :
    (runSession cfg ext gq q).1.turns ≤ cfg.maxTurns := by
  rw [runSession]
  split
  · simp [finishFailure, initialSession]
  · simp [finishFailure, initialSession]
  · rename_i ms hex
    have hb := orchLoop_turns_le cfg ext gq cfg.maxTurns
      { initialSession q with mentions := ms }
    simpa [initialSession] using hb

/-- C3: two calls of the Graph Query Agent with identical mentions, rawQuery
and mode against an unchanged graph store return the same evidence: the store
passes through the call unchanged, the second result equals the first, and in
particular the two returned sequences hold the same set of items. -/
theorem graph_query_idempotent (store : GraphStore) (mentions : List EntityMention)
    (rawQuery : Option String) (mode : QueryMode) :
    (queryStateful store mentions rawQuery mode).2 = store ∧
    (queryStateful (queryStateful store mentions rawQuery mode).2 mentions rawQuery mode).1 =
      (queryStateful store mentions rawQuery mode).1 ∧
    ∀ l1 l2,
      (queryStateful store mentions rawQuery mode).1 = .ok l1 →
      (queryStateful (queryStateful store mentions rawQuery mode).2 mentions rawQuery mode).1 =
        .ok l2 →
      ∀ e, e ∈ l1 ↔ e ∈ l2 := by
  refine ⟨rfl, rfl, ?_⟩
  intro l1 l2 h1 h2 e
  simp only [queryStateful] at h1 h2
  rw [h1] at h2
  injection h2 with h3
  subst h3
  exact Iff.rfl

/-- Witness for C3 at a concrete store and mention set. -/
theorem graph_query_idempotent_check :
    evW ∈ ([] : List GraphEvidenceItem) ↔ evW ∈ ([] : List GraphEvidenceItem) :=
  (graph_query_idempotent storeW [mW] none .entityLookup).2.2 [] [] rfl rfl evW

/-- C4: extraction on the empty query string returns the empty mention set and
no error, for every provider oracle, retry budget and hint. -/
theorem extract_empty_input_yields_empty_ok (oracle : ExtractOracle)
    (retryBudget : Nat) (hint : Option String) :
    extract oracle retryBudget "" hint = .ok [] := by
  rw [extract, if_pos rfl]

/-- C5: a Session that reaches Failed surfaces a FailureReport (carrying the
error kind, the last machine state and the turn count, with the turn count
equal to the final turn counter of the Session), and the caller never receives
an Answer from such a Session: an answer result always carries status
Answered, never Failed. -/
theorem failed_session_yields_failure_report_never_answer (cfg : Config)
    (ext : ExtractOracle) (gq : GraphOracle) (q : String) :
    (∀ sfin r, runSession cfg ext gq q = (sfin, .failure r) →
      sfin.status = .failed ∧ r.turnCount = sfin.turns ∧
        ∀ a, SessionResult.failure r ≠ .answer a) ∧
    (∀ sfin a, runSession cfg ext gq q = (sfin, .answer a) → sfin.status ≠ .failed) := by
  constructor
  · intro sfin r h
    obtain ⟨h1, h2⟩ := runSession_failure cfg ext gq q sfin r h
    exact ⟨h1, h2, fun a hc => SessionResult.noConfusion hc⟩
  · intro sfin a h
    rw [(runSession_answer cfg ext gq q sfin a h).1]
    simp

/-- Witness for C5 at a concrete failing extractor. -/
theorem failed_session_yields_failure_report_never_answer_check :
    sessFailW.status = .failed ∧ repW.turnCount = sessFailW.turns :=
  ⟨(((failed_session_yields_failure_report_never_answer cfgW extFailW gqOkW "q").1
      sessFailW repW (by decide)).1),
   (((failed_session_yields_failure_report_never_answer cfgW extFailW gqOkW "q").1
      sessFailW repW (by decide)).2.1)⟩

/-- C6: the Graph Query Agent fails with GraphQueryInvalid exactly when the
resolved query is malformed (empty mention set with no raw query, for
instance in EntityLookup mode), and a well-formed query with no matches in
the store returns the empty sequence, not an error. -/
theorem query_invalid_iff_malformed_and_ok_empty_on_no_matches (store : GraphStore)
    (mentions : List EntityMention) (rawQuery : Option String) (mode : QueryMode) :
    (query store mentions rawQuery mode = .error .graphQueryInvalid ↔
      queryMalformed mentions rawQuery = true) ∧
    (queryMalformed mentions rawQuery = false →
      noMatches store mentions rawQuery mode = true →
      query store mentions rawQuery mode = .ok []) := by
  constructor
  · constructor
    · intro h
      rw [query.eq_def] at h
      split at h
      · rename_i hm
        exact hm
      · exfalso
        split at h <;> simp at h
    · intro hm
      rw [query.eq_def, if_pos hm]
  · intro hm hnm
    have hcond : ¬ queryMalformed mentions rawQuery = true := by simp [hm]
    rw [query.eq_def, if_neg hcond]
    cases mode with
    | entityLookup =>
      simp only [noMatches, List.isEmpty_iff] at hnm
      rw [hnm]
      simp [relsTouching]
    | communitySummary =>
      simp only [noMatches, List.isEmpty_iff] at hnm
      rw [hnm]
      simp [highestLevel]
    | vectorSimilarity =>
      simp only [noMatches, List.isEmpty_iff] at hnm
      rw [hnm]
      simp [sortBy]

/-- Witness for C6: a malformed call fails with GraphQueryInvalid and a
well-formed call with no matches returns the empty sequence. -/
theorem query_invalid_iff_malformed_and_ok_empty_on_no_matches_check :
    query storeW [] none .entityLookup = .error .graphQueryInvalid ∧
    query storeW [mW] none .entityLookup = .ok [] :=
  ⟨((query_invalid_iff_malformed_and_ok_empty_on_no_matches storeW [] none
      .entityLookup).1).mpr (by decide),
   ((query_invalid_iff_malformed_and_ok_empty_on_no_matches storeW [mW] none
      .entityLookup).2) (by decide) (by decide)⟩

/-- C7: when the turn counter has reached the configured maximum and the graph
call of the current pass returns evidence, the Orchestrator proceeds to
Synthesizing and terminates with an Answer (possibly low-confidence, possibly
with an empty citation list) and status Answered - never in Failed on account
of budget exhaustion. -/
theorem turn_budget_exhausted_synthesizes_answer (cfg : Config)
    (ext : ExtractOracle) (gq : GraphOracle) (fuel : Nat) (s : Session)
    (evs : List GraphEvidenceItem)
    (hok : callWithRetry (fun n => gq n s.mentions (some s.query) (queryModeFor s)) 0
      cfg.retryBudget = .ok evs)
    (hmax : cfg.maxTurns ≤ s.turns) :
    orchLoop cfg ext gq fuel s =
      ({ withEvidence s evs with status := .answered },
        .answer (synthesize (withEvidence s evs))) := by
  cases fuel with
  | zero =>
    rw [orchLoop, hok]
    split
    · rename_i k heq
      exact absurd heq (by simp)
    · rename_i k heq
      exact absurd heq (by simp)
    · rename_i evs2 heq
      injection heq with h2
      subst h2
      rfl
  | succ fuel1 =>
    rw [orchLoop, hok]
    split
    · rename_i k heq
      exact absurd heq (by simp)
    · rename_i k heq
      exact absurd heq (by simp)
    · rename_i evs2 heq
      injection heq with h2
      subst h2
      have hcond : sufficientEvidence cfg (withEvidence s evs) = true ∨
          cfg.maxTurns ≤ (withEvidence s evs).turns :=
        Or.inr (by simpa [withEvidence] using hmax)
      rw [if_pos hcond]
      rfl

/-- Witness for C7 at a concrete zero-budget configuration. -/
theorem turn_budget_exhausted_synthesizes_answer_check :
    orchLoop cfgW extOkW gqOkW 0 (initialSession "q") =
      ({ withEvidence (initialSession "q") [] with status := .answered },
        .answer (synthesize (withEvidence (initialSession "q") []))) :=
  turn_budget_exhausted_synthesizes_answer cfgW extOkW gqOkW 0 (initialSession "q") []
    rfl (by decide)

/-- C8: the citations of the synthesized Answer are the identifiers of the
accumulated evidence in retrieval order, deduplicated by identifier keeping
first occurrences: they form a duplicate-free subsequence of the
retrieval-order identifier sequence holding exactly the retrieved identifiers,
pairwise ordered by first retrieval position - so items tying on
relevanceScore keep retrieval order and no re-sort by score happens. The
synthesis step is the function synthesize, which takes neither an oracle nor
a store, so it can issue no agent calls. -/
theorem synthesize_citation_policy (s : Session) :
    (synthesize s).citedEvidenceIds =
      dedupKeepFirst (s.evidence.map (fun e => e.identifier)) ∧
    (synthesize s).citedEvidenceIds.Sublist (s.evidence.map (fun e => e.identifier)) ∧
    (synthesize s).citedEvidenceIds.Nodup ∧
    (∀ i, i ∈ (synthesize s).citedEvidenceIds ↔
      i ∈ s.evidence.map (fun e => e.identifier)) ∧
    (synthesize s).citedEvidenceIds.Pairwise (fun a b =>
      firstIdx (s.evidence.map (fun e => e.identifier)) a <
        firstIdx (s.evidence.map (fun e => e.identifier)) b) := by
  refine ⟨rfl, ?_, ?_, ?_, ?_⟩
  · simp only [synthesize, dedupKeepFirst]
    exact sublist_dedupAcc (s.evidence.map (fun e => e.identifier)) []
  · simp only [synthesize, dedupKeepFirst]
    exact nodup_dedupAcc (s.evidence.map (fun e => e.identifier)) []
  · intro i
    simp only [synthesize]
    exact mem_dedupKeepFirst_iff i (s.evidence.map (fun e => e.identifier))
  · simp only [synthesize, dedupKeepFirst]
    exact pairwise_firstIdx_dedupAcc (s.evidence.map (fun e => e.identifier)) []

/-- C9: the workspace-setup step of pipeline.ipynb (os.makedirs with exist_ok
True) is idempotent: running it twice equals running it once and never raises,
and when the target directory chain already exists the filesystem is returned
unchanged with no error. -/
theorem workspace_setup_idempotent (fs : List DirPath) :
    workspaceSetupStep fs = .ok ((ancestorChain inputDir).foldl addDir fs) ∧
    Except.bind (workspaceSetupStep fs) workspaceSetupStep = workspaceSetupStep fs ∧
    ((∀ p ∈ ancestorChain inputDir, p ∈ fs) → workspaceSetupStep fs = .ok fs) := by
  have hnoerr : ∀ (g : List DirPath),
      workspaceSetupStep g = .ok ((ancestorChain inputDir).foldl addDir g) := by
    intro g
    rw [workspaceSetupStep, makedirs, if_neg (by simp)]
  refine ⟨hnoerr fs, ?_, ?_⟩
  · rw [hnoerr fs]
    simp only [Except.bind]
    rw [hnoerr ((ancestorChain inputDir).foldl addDir fs)]
    rw [foldl_addDir_noop _ _
      (fun p hp => mem_foldl_addDir (ancestorChain inputDir) fs p (Or.inr hp))]
  · intro h
    rw [hnoerr fs, foldl_addDir_noop _ _ h]

/-- Witness for C9: on a filesystem already holding the directory chain, the
setup step returns it unchanged. -/
theorem workspace_setup_idempotent_check :
    workspaceSetupStep (ancestorChain inputDir) = .ok (ancestorChain inputDir) :=
  (workspace_setup_idempotent (ancestorChain inputDir)).2.2 (by decide)

/-- Concrete filled credential configuration. -/
def extCfgW : ExternalConfig :=
  { neo4jConfig := [("NEO4J_URI", "bolt"), ("NEO4J_USERNAME", "neo4j")] }

/-- Concrete notebook state after indexing ran on the alice corpus. -/
def nbIndexedW : NotebookState :=
  { fs := ancestorChain inputDir, inputText := "alice",
    indexingOutput := some (graphragIndex "alice") }

/-- Concrete notebook state carrying the same on-disk indexing artifacts as
nbIndexedW but different in-memory values from the earlier cells. -/
def nbIndexedSameArtifactsW : NotebookState :=
  { fs := [], inputText := "other in-memory text",
    indexingOutput := some (graphragIndex "alice") }

/-- Concrete notebook state in which the indexing cells never ran. -/
def nbUnindexedW : NotebookState :=
  { fs := ancestorChain inputDir, inputText := "alice", indexingOutput := none }

/-- Concrete fresh notebook state at the start of a pipeline run. -/
def nbEmptyW : NotebookState :=
  { fs := [], inputText := "", indexingOutput := none }

/-- Counterexample to C10 as stated: the database-loading step is not
independent of the values computed by the earlier notebook cells. Two notebook
states differing only in what cell 9 wrote to disk make the step behave
differently (load succeeds against the indexing output and fails without it),
and two pipeline runs differing only in the corpus downloaded by cell 5 load
different data - the zero-argument call still reads those artifacts from the
filesystem. -/
theorem database_loading_depends_on_earlier_cells :
    databaseLoadingStep nbIndexedW extCfgW ≠ databaseLoadingStep nbUnindexedW extCfgW ∧
    (runPipeline "alice" extCfgW nbEmptyW).2 ≠ (runPipeline "wonderland" extCfgW nbEmptyW).2 := by
  constructor
  · decide
  · decide

/-- C10 amended: the database-loading step passes zero arguments to
neo4j_loading.load, so no in-memory value of the notebook flows through the
call: any two notebook states carrying the same on-disk indexing artifacts
give the same load outcome, the credential gate is decided by the external
configuration alone, and a pipeline run feeds the load exactly through the
artifacts the indexing cells derive from the corpus - the remaining, real
dependence on earlier cells. -/
theorem database_loading_independent_given_artifacts (nb1 nb2 : NotebookState)
    (ext : ExternalConfig) (corpus : String) (nb0 : NotebookState)
    (h : nb1.indexingOutput = nb2.indexingOutput) :
    databaseLoadingStep nb1 ext = databaseLoadingStep nb2 ext ∧
    (ext.neo4jConfig.isEmpty = true →
      databaseLoadingStep nb1 ext = .loadFailed "neo4j_config.json must be filled") ∧
    (runPipeline corpus ext nb0).2 = neo4jLoad ext (some (graphragIndex corpus)) := by
  refine ⟨?_, ?_, rfl⟩
  · unfold databaseLoadingStep
    rw [h]
  · intro he
    unfold databaseLoadingStep neo4jLoad
    rw [if_pos he]

/-- Witness for the amended C10: two concrete notebook states with equal
artifacts but different in-memory values give the same load outcome. -/
theorem database_loading_independent_given_artifacts_check :
    databaseLoadingStep nbIndexedW extCfgW =
      databaseLoadingStep nbIndexedSameArtifactsW extCfgW :=
  (database_loading_independent_given_artifacts nbIndexedW nbIndexedSameArtifactsW
    extCfgW "alice" nbEmptyW (by decide)).1

end GraphAgents
